import Mathlib

/-!
Shallow embedding of `scripts/pipeline_status_display.py` (the status model and
its mutation operations) together with the overall-progress computation of
`scripts/pipeline_monitor.py`.  Timestamps are rationals standing for
`datetime` instants; every operation receives the clock reading `now`
explicitly, at the same spots where the Python code calls `datetime.now()`.
Display-only code (screen clearing, string rendering) has no effect on the
model and is not part of the embedding, except that the numeric content of the
progress-bar line is captured by `progress_pct` and `est_remaining`.
-/

namespace PipelineStatus

/-- The `AgentStatus` enum of `pipeline_status_display.py`. -/
inductive AgentStatus where
  | pending
  | active
  | completed
  | failed
  | waiting
  deriving DecidableEq, Repr

/-- The `AgentInfo` dataclass: per-agent status, timestamps, derived duration
and free-text messages, with the same defaults as the Python field defaults. -/
structure AgentInfo where
  name : String
  status : AgentStatus := AgentStatus.pending
  start_time : Option ℚ := none
  end_time : Option ℚ := none
  duration : Option ℚ := none
  status_message : String := ""
  output_preview : String := ""
  deriving DecidableEq, Repr

/-- The `AgentInfo.elapsed_time` property: `None` when there is no start time,
otherwise `(end_time or now) - start_time`. -/
def AgentInfo.elapsed_time (a : AgentInfo) (now : ℚ) : Option ℚ :=
  match a.start_time with
  | none => none
  | some s => some (a.end_time.getD now - s)

/-- The `PipelineStage` dataclass: stage-level status and timestamps plus the
ordered agent list. -/
structure PipelineStage where
  name : String
  display_name : String
  agents : List AgentInfo := []
  status : AgentStatus := AgentStatus.pending
  start_time : Option ℚ := none
  end_time : Option ℚ := none
  deriving DecidableEq, Repr

/-- The mutable state of a `PipelineStatusDisplay` object.  `stages` is the
`self.stages` dict as an ordered association list (Python dicts preserve
insertion order). -/
structure PipelineStatusDisplay where
  request : String
  pipeline_id : String
  start_time : ℚ
  current_stage : Option String := none
  stages : List (String × PipelineStage)
  deriving DecidableEq, Repr

/-- `STAGES_CONFIG`, in dict insertion order: stage key, name, display name,
agent names. -/
def STAGES_CONFIG : List (String × String × String × List String) :=
  [ ("routing", "routing", "ROUTING", ["router"]),
    ("intent", "intent", "INTENT ANALYSIS", ["intent-cc", "intent-gpt5", "intent-merge-cc"]),
    ("planning", "planning", "PLANNING", ["plan-cc", "plan-gpt5", "plan-merge-cc"]),
    ("development", "development", "DEVELOPMENT", ["dev-cc"]),
    ("evaluation", "evaluation", "EVALUATION", ["eval-gpt5"]),
    ("rollback", "rollback", "ROLLBACK", ["rollback-cc"]) ]

/-- A freshly constructed agent: `AgentInfo(name=agent_name)`. -/
def initAgent (n : String) : AgentInfo := { name := n }

/-- One entry of `self.stages` as built by `__init__` from a config row. -/
def initStage (c : String × String × String × List String) : String × PipelineStage :=
  (c.1, { name := c.2.1, display_name := c.2.2.1, agents := c.2.2.2.map initAgent })

/-- `PipelineStatusDisplay.__init__`: record the request, id and start time and
build every stage (with all agents `PENDING`) from `STAGES_CONFIG`. -/
def initDisplay (request pipeline_id : String) (now : ℚ) : PipelineStatusDisplay :=
  { request := request, pipeline_id := pipeline_id, start_time := now,
    stages := STAGES_CONFIG.map initStage }

/-- The mutation `set_agent_status` performs on the agent it found: overwrite
status and both messages; then set `start_time` on an ACTIVE write if unset,
else on a COMPLETED/FAILED write with `end_time` unset, set `end_time := now`
and `duration := elapsed_time` (evaluated after `end_time` was set). -/
def updateAgent (a : AgentInfo) (status : AgentStatus) (msg preview : String)
    (now : ℚ) : AgentInfo :=
  let a1 : AgentInfo :=
    { a with status := status, status_message := msg, output_preview := preview }
  if status = AgentStatus.active ∧ a1.start_time = none then
    { a1 with start_time := some now }
  else if (status = AgentStatus.completed ∨ status = AgentStatus.failed) ∧ a1.end_time = none then
    let a2 := { a1 with end_time := some now }
    { a2 with duration := a2.elapsed_time now }
  else a1

/-- `_find_agent` restricted to one stage's agent list: first agent with the
given name. -/
def findAgentInList (agents : List AgentInfo) (n : String) : Option AgentInfo :=
  match agents with
  | [] => none
  | a :: rest => if a.name = n then some a else findAgentInList rest n

/-- `_find_agent` over the ordered stage table. -/
def findAgentStages (stages : List (String × PipelineStage)) (n : String) : Option AgentInfo :=
  match stages with
  | [] => none
  | (_, st) :: rest =>
    match findAgentInList st.agents n with
    | some a => some a
    | none => findAgentStages rest n

/-- `_find_agent(agent_name)`: first agent with that name across all stages. -/
def findAgent (d : PipelineStatusDisplay) (n : String) : Option AgentInfo :=
  findAgentStages d.stages n

/-- Replace the first agent named `n` by `f` of it; the Bool reports whether a
match existed (Python instead mutates the object `_find_agent` returned). -/
def setFirstAgent (f : AgentInfo → AgentInfo) (n : String) :
    List AgentInfo → List AgentInfo × Bool
  | [] => ([], false)
  | a :: rest =>
    if a.name = n then (f a :: rest, true)
    else
      let r := setFirstAgent f n rest
      (a :: r.1, r.2)

/-- Replace the first agent named `n` across the stage table. -/
def setFirstAgentStages (f : AgentInfo → AgentInfo) (n : String) :
    List (String × PipelineStage) → List (String × PipelineStage) × Bool
  | [] => ([], false)
  | (k, st) :: rest =>
    let r := setFirstAgent f n st.agents
    if r.2 then ((k, { st with agents := r.1 }) :: rest, true)
    else
      let r2 := setFirstAgentStages f n rest
      ((k, st) :: r2.1, r2.2)

/-- Shared shape of the Python in-place mutation: locate the first agent named
`n` (as `_find_agent` does) and update it; no match means no state change. -/
def mutateAgent (d : PipelineStatusDisplay) (n : String) (f : AgentInfo → AgentInfo) :
    PipelineStatusDisplay :=
  let r := setFirstAgentStages f n d.stages
  if r.2 then { d with stages := r.1 } else d

/-- `set_agent_status(agent_name, status, status_message, output_preview)`:
if `_find_agent` succeeds, apply `updateAgent`; otherwise the body is skipped
silently (the method always returns `None`, so state change is its entire
observable effect). -/
def set_agent_status (d : PipelineStatusDisplay) (n : String) (status : AgentStatus)
    (msg preview : String) (now : ℚ) : PipelineStatusDisplay :=
  mutateAgent d n (fun a => updateAgent a status msg preview now)

/-- `agent_started(agent_name, status_message)`. -/
def agent_started (d : PipelineStatusDisplay) (n msg : String) (now : ℚ) :
    PipelineStatusDisplay :=
  set_agent_status d n AgentStatus.active msg "" now

/-- `agent_completed(agent_name, duration, output_preview)`: first
`if agent and duration: agent.duration = duration` (Python truthiness, so a
`0` duration is treated like `None`), then
`set_agent_status(COMPLETED, "Completed successfully", output_preview)`. -/
def agent_completed (d : PipelineStatusDisplay) (n : String) (dur : Option ℚ)
    (preview : String) (now : ℚ) : PipelineStatusDisplay :=
  let d1 :=
    match dur with
    | none => d
    | some x => if x = 0 then d else mutateAgent d n (fun a => { a with duration := some x })
  set_agent_status d1 n AgentStatus.completed "Completed successfully" preview now

/-- `agent_failed(agent_name, error_message)`. -/
def agent_failed (d : PipelineStatusDisplay) (n err : String) (now : ℚ) :
    PipelineStatusDisplay :=
  set_agent_status d n AgentStatus.failed ("Error: " ++ err) "" now

/-- The mutation `update_stage` performs on a known stage: overwrite the
status; stamp `start_time` on ACTIVE if unset, else stamp `end_time` on
COMPLETED if unset. -/
def updateStageInfo (st : PipelineStage) (status : AgentStatus) (now : ℚ) : PipelineStage :=
  let s1 := { st with status := status }
  if status = AgentStatus.active ∧ s1.start_time = none then
    { s1 with start_time := some now }
  else if status = AgentStatus.completed ∧ s1.end_time = none then
    { s1 with end_time := some now }
  else s1

/-- `update_stage(stage_name, status)`: only acts when `stage_name` is a key of
`self.stages`; then it also records `current_stage`.  An unknown key is a
silent no-op. -/
def update_stage (d : PipelineStatusDisplay) (key : String) (status : AgentStatus)
    (now : ℚ) : PipelineStatusDisplay :=
  if (d.stages.lookup key).isSome then
    { d with
      stages := d.stages.map
        (fun p => if p.1 = key then (p.1, updateStageInfo p.2 status now) else p),
      current_stage := some key }
  else d

/-- The `agent.status == AgentStatus.COMPLETED` test of the progress code. -/
def isCompleted (a : AgentInfo) : Bool :=
  decide (a.status = AgentStatus.completed)

/-- `total_agents` of `_get_progress_bar`: all declared agents. -/
def total_agents (d : PipelineStatusDisplay) : ℕ :=
  (d.stages.map (fun p => p.2.agents.length)).sum

/-- `completed_agents` of `_get_progress_bar`: agents whose status is COMPLETED. -/
def completed_agents (d : PipelineStatusDisplay) : ℕ :=
  (d.stages.map (fun p => p.2.agents.countP isCompleted)).sum

/-- `progress_pct` of `_get_progress_bar`:
`completed_agents / total_agents * 100` guarded by `total_agents > 0`. -/
def progress_pct (d : PipelineStatusDisplay) : ℚ :=
  if 0 < total_agents d then (completed_agents d : ℚ) / (total_agents d : ℚ) * 100 else 0

/-- The estimated-remaining computation of `_get_progress_bar`: when
`progress_pct > 0` the displayed value is
`max(0, elapsed / (progress_pct / 100) - elapsed)`; `none` stands for the
`"Calculating..."` placeholder shown otherwise. -/
def est_remaining (d : PipelineStatusDisplay) (now : ℚ) : Option ℚ :=
  let elapsed := now - d.start_time
  if 0 < progress_pct d then
    some (max 0 (elapsed / (progress_pct d / 100) - elapsed))
  else none

/-- `display_overall_progress` of `pipeline_monitor.py`: its progress
percentage, from a completed count and a total count. -/
def monitor_progress_pct (completed total : ℕ) : ℚ :=
  if 0 < total then (completed : ℚ) / (total : ℚ) * 100 else 0

/-- The `Estimated Remaining` line of `display_overall_progress`: a number is
printed only when `0 < progress_pct < 100`, and it is
`elapsed / (progress_pct / 100) - elapsed` with no clamping; `none` stands for
no line being printed. -/
def monitor_est_remaining (completed total : ℕ) (elapsed : ℚ) : Option ℚ :=
  let pct := monitor_progress_pct completed total
  if 0 < pct ∧ pct < 100 then some (elapsed / (pct / 100) - elapsed) else none

/-- One status-reporting call, for reasoning about whole call sequences. -/
inductive Op where
  | started (n msg : String)
  | completedOp (n : String) (dur : Option ℚ) (preview : String)
  | failedOp (n err : String)
  | setStatus (n : String) (st : AgentStatus) (msg preview : String)
  | stageOp (key : String) (st : AgentStatus)
  deriving DecidableEq, Repr

/-- Apply one call at clock reading `t`. -/
def applyOp (d : PipelineStatusDisplay) : Op → ℚ → PipelineStatusDisplay
  | Op.started n msg, t => agent_started d n msg t
  | Op.completedOp n dur p, t => agent_completed d n dur p t
  | Op.failedOp n err, t => agent_failed d n err t
  | Op.setStatus n st m p, t => set_agent_status d n st m p t
  | Op.stageOp k st, t => update_stage d k st t

/-- Apply a timed call sequence left to right. -/
def runOps (d : PipelineStatusDisplay) : List (Op × ℚ) → PipelineStatusDisplay
  | [] => d
  | (op, t) :: rest => runOps (applyOp d op t) rest

/-- The clock readings of the sequence are nondecreasing and start no earlier
than `T`. -/
def timesFrom (T : ℚ) : List (Op × ℚ) → Bool
  | [] => true
  | (_, t) :: rest => decide (T ≤ t) && timesFrom t rest

/-- The call passes no nonzero explicit duration to `agent_completed` (the only
way a caller can plant a duration the model did not compute). -/
def opDurOk : Op → Bool
  | Op.completedOp _ (some x) _ => decide (x = 0)
  | _ => true

/-- No call in the sequence passes a nonzero explicit duration to
`agent_completed`. -/
def noExplicitDuration (ops : List (Op × ℚ)) : Bool :=
  ops.all (fun p => opDurOk p.1)

/-- Clock-bounded per-agent invariant: timestamps never exceed the last clock
reading, and a recorded duration is consistent with both timestamps. -/
def AgentInv (T : ℚ) (a : AgentInfo) : Prop :=
  (∀ s, a.start_time = some s → s ≤ T) ∧
  (∀ e, a.end_time = some e → e ≤ T) ∧
  (∀ dd, a.duration = some dd →
    ∃ s e, a.start_time = some s ∧ a.end_time = some e ∧ s ≤ e ∧ dd = e - s)

/-- The clock-bounded invariant over the whole model. -/
def DisplayInv (T : ℚ) (d : PipelineStatusDisplay) : Prop :=
  ∀ k st, (k, st) ∈ d.stages → ∀ a ∈ st.agents, AgentInv T a

/-- The `router` agent record produced by a start report at clock 2 followed by
a completion report at clock 4. -/
def routerDone : AgentInfo :=
  { name := "router", status := AgentStatus.completed, start_time := some 2,
    end_time := some 4, duration := some ((4 : ℚ) - 2),
    status_message := "Completed successfully", output_preview := "" }

/-- The routing stage of the same run: its own status and timestamps untouched,
holding `routerDone`. -/
def routingDone : PipelineStage :=
  { name := "routing", display_name := "ROUTING", agents := [routerDone],
    status := AgentStatus.pending, start_time := none, end_time := none }

/-- The stage-level fields a stage-status claim talks about: status and the two
stage timestamps. -/
def stageMeta (st : PipelineStage) : AgentStatus × Option ℚ × Option ℚ :=
  (st.status, st.start_time, st.end_time)

theorem updateAgent_status (a : AgentInfo) (st : AgentStatus) (m p : String) (now : ℚ) :
    (updateAgent a st m p now).status = st := by
  simp only [updateAgent]
  split
  · rfl
  · split
    · rfl
    · rfl

theorem updateAgent_name (a : AgentInfo) (st : AgentStatus) (m p : String) (now : ℚ) :
    (updateAgent a st m p now).name = a.name := by
  simp only [updateAgent]
  split
  · rfl
  · split
    · rfl
    · rfl

theorem updateAgent_active_fresh (a : AgentInfo) (m p : String) (now : ℚ)
    (h : a.start_time = none) :
    updateAgent a AgentStatus.active m p now =
      { a with status := AgentStatus.active, status_message := m, output_preview := p,
               start_time := some now } := by
  simp only [updateAgent]
  split_ifs with h1 h2
  · rfl
  · exact absurd ⟨by simp, h⟩ h1
  · exact absurd ⟨by simp, h⟩ h1

theorem updateAgent_active_started (a : AgentInfo) (m p : String) (now s : ℚ)
    (h : a.start_time = some s) :
    updateAgent a AgentStatus.active m p now =
      { a with status := AgentStatus.active, status_message := m, output_preview := p } := by
  simp only [updateAgent]
  split_ifs with h1 h2
  · rw [h] at h1
    exact absurd h1.2 (by simp)
  · exact absurd h2.1 (by simp)
  · rfl

theorem updateAgent_terminal_fresh (a : AgentInfo) (st : AgentStatus) (m p : String) (now : ℚ)
    (hst : st = AgentStatus.completed ∨ st = AgentStatus.failed) (h : a.end_time = none) :
    updateAgent a st m p now =
      { a with status := st, status_message := m, output_preview := p,
               end_time := some now,
               duration := a.start_time.map (fun s => now - s) } := by
  simp only [updateAgent]
  split_ifs with h1 h2
  · rcases hst with h' | h' <;> simp [h'] at h1
  · simp only [AgentInfo.elapsed_time]
    cases a.start_time <;> rfl
  · exact absurd ⟨hst, h⟩ h2

theorem updateAgent_terminal_ended (a : AgentInfo) (st : AgentStatus) (m p : String)
    (now e : ℚ) (hst : st = AgentStatus.completed ∨ st = AgentStatus.failed)
    (h : a.end_time = some e) :
    updateAgent a st m p now =
      { a with status := st, status_message := m, output_preview := p } := by
  simp only [updateAgent]
  split_ifs with h1 h2
  · rcases hst with h' | h' <;> simp [h'] at h1
  · rw [h] at h2
    exact absurd h2.2 (by simp)
  · rfl

theorem setFirstAgent_snd (f : AgentInfo → AgentInfo) (n : String) (l : List AgentInfo) :
    (setFirstAgent f n l).2 = (findAgentInList l n).isSome := by
  induction l with
  | nil => rfl
  | cons b rest ih =>
    simp only [setFirstAgent, findAgentInList]
    split_ifs with h
    · rfl
    · exact ih

theorem setFirstAgentStages_snd (f : AgentInfo → AgentInfo) (n : String)
    (stages : List (String × PipelineStage)) :
    (setFirstAgentStages f n stages).2 = (findAgentStages stages n).isSome := by
  induction stages with
  | nil => rfl
  | cons p rest ih =>
    obtain ⟨k, st⟩ := p
    simp only [setFirstAgentStages, findAgentStages, setFirstAgent_snd]
    cases hf : findAgentInList st.agents n with
    | some b => rfl
    | none => simpa using ih

theorem setFirstAgent_decomp (f : AgentInfo → AgentInfo) (n : String) (l : List AgentInfo)
    (a : AgentInfo) (h : findAgentInList l n = some a) :
    ∃ l1 l2, l = l1 ++ a :: l2 ∧ (setFirstAgent f n l).1 = l1 ++ f a :: l2 ∧
      findAgentInList l1 n = none ∧ a.name = n := by
  induction l with
  | nil => simp [findAgentInList] at h
  | cons b rest ih =>
    by_cases hb : b.name = n
    · rw [findAgentInList, if_pos hb] at h
      obtain rfl : b = a := by injection h
      exact ⟨[], rest, rfl, by simp [setFirstAgent, hb], rfl, hb⟩
    · rw [findAgentInList, if_neg hb] at h
      obtain ⟨l1, l2, h1, h2, h3, h4⟩ := ih h
      refine ⟨b :: l1, l2, by rw [h1]; rfl, ?_, ?_, h4⟩
      · simp only [setFirstAgent, if_neg hb]
        rw [h2]
        rfl
      · rw [findAgentInList, if_neg hb]
        exact h3

theorem setFirstAgentStages_decomp (f : AgentInfo → AgentInfo) (n : String)
    (stages : List (String × PipelineStage)) (a : AgentInfo)
    (h : findAgentStages stages n = some a) :
    ∃ s1 k st l1 l2 s2,
      stages = s1 ++ (k, st) :: s2 ∧
      st.agents = l1 ++ a :: l2 ∧
      (setFirstAgentStages f n stages).1 =
        s1 ++ (k, { st with agents := l1 ++ f a :: l2 }) :: s2 ∧
      (∀ q ∈ s1, findAgentInList q.2.agents n = none) ∧
      findAgentInList l1 n = none ∧ a.name = n := by
  induction stages with
  | nil => simp [findAgentStages] at h
  | cons p rest ih =>
    obtain ⟨k, st⟩ := p
    rw [findAgentStages] at h
    cases hf : findAgentInList st.agents n with
    | some b =>
      rw [hf] at h
      obtain rfl : b = a := Option.some.inj h
      obtain ⟨l1, l2, g1, g2, g3, g4⟩ := setFirstAgent_decomp f n st.agents b hf
      refine ⟨[], k, st, l1, l2, rest, rfl, g1, ?_, by simp, g3, g4⟩
      simp only [setFirstAgentStages, setFirstAgent_snd, hf, Option.isSome_some, if_true]
      rw [g2]
      rfl
    | none =>
      rw [hf] at h
      obtain ⟨s1, k1, st1, l1, l2, s2, g1, g2, g3, g4, g5, g6⟩ := ih h
      refine ⟨(k, st) :: s1, k1, st1, l1, l2, s2, by rw [g1]; rfl, g2, ?_, ?_, g5, g6⟩
      · simp only [setFirstAgentStages, setFirstAgent_snd, hf, Option.isSome_none]
        rw [if_neg (by simp)]
        rw [g3]
        rfl
      · intro q hq
        rcases List.mem_cons.mp hq with h' | h'
        · rw [h']
          exact hf
        · exact g4 q h'

theorem mutateAgent_not_found (d : PipelineStatusDisplay) (n : String)
    (f : AgentInfo → AgentInfo) (h : findAgent d n = none) : mutateAgent d n f = d := by
  simp only [mutateAgent, setFirstAgentStages_snd]
  rw [show findAgentStages d.stages n = none from h]
  rfl

theorem mutateAgent_found (d : PipelineStatusDisplay) (n : String)
    (f : AgentInfo → AgentInfo) (a : AgentInfo) (h : findAgent d n = some a) :
    mutateAgent d n f = { d with stages := (setFirstAgentStages f n d.stages).1 } := by
  simp only [mutateAgent, setFirstAgentStages_snd]
  rw [show findAgentStages d.stages n = some a from h]
  rfl

theorem findAgentInList_append_none (l1 l2 : List AgentInfo) (n : String)
    (h : findAgentInList l1 n = none) :
    findAgentInList (l1 ++ l2) n = findAgentInList l2 n := by
  induction l1 with
  | nil => rfl
  | cons b rest ih =>
    rw [findAgentInList] at h
    by_cases hb : b.name = n
    · rw [if_pos hb] at h
      exact absurd h (by simp)
    · rw [if_neg hb] at h
      rw [List.cons_append, findAgentInList, if_neg hb]
      exact ih h

theorem findAgentStages_append_none (s1 s2 : List (String × PipelineStage)) (n : String)
    (h : ∀ q ∈ s1, findAgentInList q.2.agents n = none) :
    findAgentStages (s1 ++ s2) n = findAgentStages s2 n := by
  induction s1 with
  | nil => rfl
  | cons q rest ih =>
    obtain ⟨k, st⟩ := q
    rw [List.cons_append, findAgentStages]
    rw [h (k, st) (List.mem_cons_self _ _)]
    exact ih (fun q hq => h q (List.mem_cons_of_mem _ hq))

theorem findAgent_mutateAgent (d : PipelineStatusDisplay) (n : String)
    (f : AgentInfo → AgentInfo) (a : AgentInfo) (h : findAgent d n = some a)
    (hname : (f a).name = a.name) :
    findAgent (mutateAgent d n f) n = some (f a) := by
  obtain ⟨s1, k, st, l1, l2, s2, h1, h2, h3, h4, h5, h6⟩ :=
    setFirstAgentStages_decomp f n d.stages a h
  rw [mutateAgent_found d n f a h]
  show findAgentStages (setFirstAgentStages f n d.stages).1 n = some (f a)
  rw [h3, findAgentStages_append_none _ _ _ h4, findAgentStages]
  have : findAgentInList (l1 ++ f a :: l2) n = some (f a) := by
    rw [findAgentInList_append_none _ _ _ h5, findAgentInList,
      if_pos (by rw [hname]; exact h6)]
  rw [this]

theorem total_agents_mutateAgent (d : PipelineStatusDisplay) (n : String)
    (f : AgentInfo → AgentInfo) : total_agents (mutateAgent d n f) = total_agents d := by
  cases h : findAgent d n with
  | none => rw [mutateAgent_not_found d n f h]
  | some a =>
    obtain ⟨s1, k, st, l1, l2, s2, h1, h2, h3, h4, h5, h6⟩ :=
      setFirstAgentStages_decomp f n d.stages a h
    rw [mutateAgent_found d n f a h]
    show total_agents { d with stages := (setFirstAgentStages f n d.stages).1 } = total_agents d
    simp only [total_agents]
    rw [h3]
    conv_rhs => rw [h1]
    simp only [List.map_append, List.sum_append, List.map_cons, List.sum_cons, h2]
    simp [List.length_append]

theorem completed_agents_mutateAgent (d : PipelineStatusDisplay) (n : String)
    (f : AgentInfo → AgentInfo) (a : AgentInfo) (h : findAgent d n = some a) :
    completed_agents (mutateAgent d n f) + (if isCompleted a then 1 else 0)
      = completed_agents d + (if isCompleted (f a) then 1 else 0) := by
  obtain ⟨s1, k, st, l1, l2, s2, h1, h2, h3, h4, h5, h6⟩ :=
    setFirstAgentStages_decomp f n d.stages a h
  rw [mutateAgent_found d n f a h]
  show completed_agents { d with stages := (setFirstAgentStages f n d.stages).1 } + _
    = completed_agents d + _
  simp only [completed_agents]
  rw [h3]
  conv_rhs => rw [h1]
  simp only [List.map_append, List.sum_append, List.map_cons, List.sum_cons, h2,
    List.countP_append, List.countP_cons]
  cases hca : isCompleted a <;> cases hcf : isCompleted (f a) <;>
    simp [hca, hcf] <;> omega

theorem progress_pct_le_of_counts (d1 d2 : PipelineStatusDisplay)
    (htot : total_agents d1 = total_agents d2)
    (hc : completed_agents d1 ≤ completed_agents d2) :
    progress_pct d1 ≤ progress_pct d2 := by
  unfold progress_pct
  rw [htot]
  split_ifs with h
  · have hcast : (completed_agents d1 : ℚ) ≤ (completed_agents d2 : ℚ) := by
      exact_mod_cast hc
    have hT : (0 : ℚ) < (total_agents d2 : ℚ) := by exact_mod_cast h
    exact mul_le_mul_of_nonneg_right ((div_le_div_iff_of_pos_right hT).mpr hcast) (by norm_num)
  · exact le_refl 0

theorem progress_pct_eq_of_counts (d1 d2 : PipelineStatusDisplay)
    (htot : total_agents d1 = total_agents d2)
    (hc : completed_agents d1 = completed_agents d2) :
    progress_pct d1 = progress_pct d2 := by
  unfold progress_pct
  rw [htot, hc]

theorem setFirstAgentStages_stageMeta (f : AgentInfo → AgentInfo) (n : String)
    (stages : List (String × PipelineStage)) :
    ((setFirstAgentStages f n stages).1).map (fun q => (q.1, stageMeta q.2))
      = stages.map (fun q => (q.1, stageMeta q.2)) := by
  induction stages with
  | nil => rfl
  | cons p rest ih =>
    obtain ⟨k, st⟩ := p
    simp only [setFirstAgentStages]
    split
    · rfl
    · simp only [List.map_cons]
      rw [ih]

theorem mutateAgent_stageMeta (d : PipelineStatusDisplay) (n : String)
    (f : AgentInfo → AgentInfo) :
    (mutateAgent d n f).stages.map (fun q => (q.1, stageMeta q.2))
      = d.stages.map (fun q => (q.1, stageMeta q.2)) := by
  simp only [mutateAgent]
  split
  · exact setFirstAgentStages_stageMeta f n d.stages
  · rfl

theorem updateAgent_other (a : AgentInfo) (st : AgentStatus) (m p : String) (now : ℚ)
    (h1 : st ≠ AgentStatus.active) (h2 : st ≠ AgentStatus.completed)
    (h3 : st ≠ AgentStatus.failed) :
    updateAgent a st m p now =
      { a with status := st, status_message := m, output_preview := p } := by
  simp only [updateAgent]
  split_ifs with g1 g2
  · exact absurd g1.1 h1
  · rcases g2.1 with h' | h'
    · exact absurd h' h2
    · exact absurd h' h3
  · rfl

theorem mem_setFirstAgent (f : AgentInfo → AgentInfo) (n : String) (l : List AgentInfo)
    (b : AgentInfo) (hb : b ∈ (setFirstAgent f n l).1) :
    b ∈ l ∨ ∃ c ∈ l, b = f c := by
  induction l with
  | nil => simp [setFirstAgent] at hb
  | cons c rest ih =>
    simp only [setFirstAgent] at hb
    split_ifs at hb with hc
    · rcases List.mem_cons.mp hb with h' | h'
      · exact Or.inr ⟨c, List.mem_cons_self _ _, h'⟩
      · exact Or.inl (List.mem_cons_of_mem _ h')
    · rcases List.mem_cons.mp hb with h' | h'
      · exact Or.inl (by rw [h']; exact List.mem_cons_self _ _)
      · rcases ih h' with h'' | ⟨c2, hc2, he⟩
        · exact Or.inl (List.mem_cons_of_mem _ h'')
        · exact Or.inr ⟨c2, List.mem_cons_of_mem _ hc2, he⟩

theorem mem_setFirstAgentStages (f : AgentInfo → AgentInfo) (n : String)
    (stages : List (String × PipelineStage)) (k : String) (st : PipelineStage)
    (hmem : (k, st) ∈ (setFirstAgentStages f n stages).1)
    (b : AgentInfo) (hb : b ∈ st.agents) :
    (∃ k0 st0, (k0, st0) ∈ stages ∧ b ∈ st0.agents) ∨
    (∃ k0 st0 c, (k0, st0) ∈ stages ∧ c ∈ st0.agents ∧ b = f c) := by
  induction stages with
  | nil => simp [setFirstAgentStages] at hmem
  | cons p rest ih =>
    obtain ⟨k1, st1⟩ := p
    simp only [setFirstAgentStages] at hmem
    split at hmem
    · rcases List.mem_cons.mp hmem with h' | h'
      · have hst : st = { st1 with agents := (setFirstAgent f n st1.agents).1 } :=
          (Prod.ext_iff.mp h').2
        have hb' : b ∈ (setFirstAgent f n st1.agents).1 := by
          rw [hst] at hb
          exact hb
        rcases mem_setFirstAgent f n st1.agents b hb' with h'' | ⟨c, hc, he⟩
        · exact Or.inl ⟨k1, st1, List.mem_cons_self _ _, h''⟩
        · exact Or.inr ⟨k1, st1, c, List.mem_cons_self _ _, hc, he⟩
      · exact Or.inl ⟨k, st, List.mem_cons_of_mem _ h', hb⟩
    · rcases List.mem_cons.mp hmem with h' | h'
      · exact Or.inl ⟨k, st, by rw [h']; exact List.mem_cons_self _ _, hb⟩
      · rcases ih h' with ⟨k0, st0, hm, hb0⟩ | ⟨k0, st0, c, hm, hc, he⟩
        · exact Or.inl ⟨k0, st0, List.mem_cons_of_mem _ hm, hb0⟩
        · exact Or.inr ⟨k0, st0, c, List.mem_cons_of_mem _ hm, hc, he⟩

/-- `update_stage` never touches the agent list. -/
theorem updateStageInfo_agents (st : PipelineStage) (s : AgentStatus) (t : ℚ) :
    (updateStageInfo st s t).agents = st.agents := by
  simp only [updateStageInfo]
  split_ifs <;> rfl

theorem agentInv_mono (T T' : ℚ) (h : T ≤ T') (a : AgentInfo) (ha : AgentInv T a) :
    AgentInv T' a :=
  ⟨fun s hs => le_trans (ha.1 s hs) h, fun e he => le_trans (ha.2.1 e he) h, ha.2.2⟩

theorem agentInv_updateAgent (T t : ℚ) (hT : T ≤ t) (a : AgentInfo) (ha : AgentInv T a)
    (st : AgentStatus) (m p : String) : AgentInv t (updateAgent a st m p t) := by
  obtain ⟨hs, he, hd⟩ := ha
  by_cases hact : st = AgentStatus.active
  · subst hact
    cases hstart : a.start_time with
    | none =>
      rw [updateAgent_active_fresh a m p t hstart]
      refine ⟨?_, ?_, ?_⟩
      · intro s h'
        obtain rfl : t = s := Option.some.inj h'
        exact le_refl t
      · intro e h'
        exact le_trans (he e h') hT
      · intro dd h'
        obtain ⟨s0, e0, hseq, _, _, _⟩ := hd dd h'
        rw [hstart] at hseq
        exact absurd hseq (by simp)
    | some s0 =>
      rw [updateAgent_active_started a m p t s0 hstart]
      exact agentInv_mono T t hT _ ⟨hs, he, hd⟩
  · by_cases hterm : st = AgentStatus.completed ∨ st = AgentStatus.failed
    · cases hend : a.end_time with
      | none =>
        rw [updateAgent_terminal_fresh a st m p t hterm hend]
        refine ⟨fun s h' => le_trans (hs s h') hT, ?_, ?_⟩
        · intro e h'
          obtain rfl : t = e := Option.some.inj h'
          exact le_refl t
        · intro dd h'
          cases hstart : a.start_time with
          | none =>
            rw [hstart] at h'
            exact absurd h' (by simp)
          | some s0 =>
            rw [hstart] at h'
            obtain rfl : t - s0 = dd := Option.some.inj h'
            exact ⟨s0, t, rfl, rfl, le_trans (hs s0 hstart) hT, rfl⟩
      | some e0 =>
        rw [updateAgent_terminal_ended a st m p t e0 hterm hend]
        exact agentInv_mono T t hT _ ⟨hs, he, hd⟩
    · push_neg at hterm
      rw [updateAgent_other a st m p t hact hterm.1 hterm.2]
      exact agentInv_mono T t hT _ ⟨hs, he, hd⟩

theorem displayInv_mutateAgent (T t : ℚ) (d : PipelineStatusDisplay) (n : String)
    (f : AgentInfo → AgentInfo) (hT : T ≤ t)
    (hf : ∀ a, AgentInv T a → AgentInv t (f a)) (hd : DisplayInv T d) :
    DisplayInv t (mutateAgent d n f) := by
  intro k st hmem a ha
  cases hfind : findAgent d n with
  | none =>
    rw [mutateAgent_not_found d n f hfind] at hmem
    exact agentInv_mono T t hT a (hd k st hmem a ha)
  | some a0 =>
    rw [mutateAgent_found d n f a0 hfind] at hmem
    rcases mem_setFirstAgentStages f n d.stages k st hmem a ha with
      ⟨k0, st0, hm, hb⟩ | ⟨k0, st0, c, hm, hc, he⟩
    · exact agentInv_mono T t hT a (hd k0 st0 hm a hb)
    · rw [he]
      exact hf c (hd k0 st0 hm c hc)

theorem displayInv_update_stage (T t : ℚ) (d : PipelineStatusDisplay) (key : String)
    (status : AgentStatus) (hT : T ≤ t) (hd : DisplayInv T d) :
    DisplayInv t (update_stage d key status t) := by
  intro k st hmem a ha
  unfold update_stage at hmem
  split_ifs at hmem
  · simp only at hmem
    obtain ⟨q, hq, he⟩ := List.mem_map.mp hmem
    by_cases hk : q.1 = key
    · rw [if_pos hk] at he
      injection he with hk2 hst2
      rw [← hst2, updateStageInfo_agents] at ha
      exact agentInv_mono T t hT a (hd q.1 q.2 hq a ha)
    · rw [if_neg hk] at he
      rw [he] at hq
      exact agentInv_mono T t hT a (hd k st hq a ha)
  · exact agentInv_mono T t hT a (hd k st hmem a ha)

theorem displayInv_set_agent_status (T t : ℚ) (d : PipelineStatusDisplay) (n : String)
    (st : AgentStatus) (m p : String) (hT : T ≤ t) (hd : DisplayInv T d) :
    DisplayInv t (set_agent_status d n st m p t) :=
  displayInv_mutateAgent T t d n _ hT
    (fun a ha => agentInv_updateAgent T t hT a ha st m p) hd

theorem displayInv_applyOp (T t : ℚ) (d : PipelineStatusDisplay) (op : Op) (hT : T ≤ t)
    (hop : opDurOk op = true) (hd : DisplayInv T d) : DisplayInv t (applyOp d op t) := by
  cases op with
  | started n msg => exact displayInv_set_agent_status T t d n _ msg "" hT hd
  | completedOp n dur p =>
    cases dur with
    | none =>
      show DisplayInv t (agent_completed d n none p t)
      simp only [agent_completed]
      exact displayInv_set_agent_status T t d n _ _ p hT hd
    | some x =>
      have hx : x = 0 := by
        simpa [opDurOk] using hop
      show DisplayInv t (agent_completed d n (some x) p t)
      simp only [agent_completed, hx, if_pos]
      exact displayInv_set_agent_status T t d n _ _ p hT hd
  | failedOp n err => exact displayInv_set_agent_status T t d n _ _ "" hT hd
  | setStatus n st m p => exact displayInv_set_agent_status T t d n st m p hT hd
  | stageOp k st => exact displayInv_update_stage T t d k st hT hd

theorem initDisplay_inv (req pid : String) (t0 : ℚ) :
    DisplayInv t0 (initDisplay req pid t0) := by
  intro k st hmem a ha
  simp only [initDisplay] at hmem
  obtain ⟨c, hc, he⟩ := List.mem_map.mp hmem
  have hst : st = { name := c.2.1, display_name := c.2.2.1,
                    agents := List.map initAgent c.2.2.2 } := by
    simp only [initStage] at he
    exact ((Prod.ext_iff.mp he).2).symm
  rw [hst] at ha
  obtain ⟨nm, hnm, hna⟩ := List.mem_map.mp ha
  rw [← hna]
  refine ⟨?_, ?_, ?_⟩
  · intro s h'
    exact absurd h' (by simp [initAgent])
  · intro e h'
    exact absurd h' (by simp [initAgent])
  · intro dd h'
    exact absurd h' (by simp [initAgent])

theorem runOps_inv (ops : List (Op × ℚ)) :
    ∀ (d : PipelineStatusDisplay) (T : ℚ), DisplayInv T d → timesFrom T ops = true →
      noExplicitDuration ops = true → ∃ T2, DisplayInv T2 (runOps d ops) := by
  induction ops with
  | nil => exact fun d T hd _ _ => ⟨T, hd⟩
  | cons p rest ih =>
    intro d T hd ht hn
    obtain ⟨op, t⟩ := p
    rw [timesFrom, Bool.and_eq_true] at ht
    have hTt : T ≤ t := of_decide_eq_true ht.1
    rw [noExplicitDuration, List.all_cons, Bool.and_eq_true] at hn
    exact ih (applyOp d op t) t (displayInv_applyOp T t d op hTt hn.1 hd) ht.2 hn.2

theorem findAgent_set_agent_status (d : PipelineStatusDisplay) (n : String)
    (st : AgentStatus) (m p : String) (t : ℚ) (a : AgentInfo)
    (h : findAgent d n = some a) :
    findAgent (set_agent_status d n st m p t) n = some (updateAgent a st m p t) :=
  findAgent_mutateAgent d n _ a h (updateAgent_name a st m p t)

theorem agent_completed_none (d : PipelineStatusDisplay) (n p : String) (t : ℚ) :
    agent_completed d n none p t =
      set_agent_status d n AgentStatus.completed "Completed successfully" p t := rfl

theorem agent_completed_zero (d : PipelineStatusDisplay) (n p : String) (t : ℚ) :
    agent_completed d n (some 0) p t =
      set_agent_status d n AgentStatus.completed "Completed successfully" p t := by
  simp [agent_completed]

theorem agent_completed_some (d : PipelineStatusDisplay) (n : String) (x : ℚ) (p : String)
    (t : ℚ) (hx : x ≠ 0) :
    agent_completed d n (some x) p t =
      set_agent_status (mutateAgent d n (fun a => { a with duration := some x })) n
        AgentStatus.completed "Completed successfully" p t := by
  simp [agent_completed, hx]

theorem total_agents_update_stage (d : PipelineStatusDisplay) (k : String)
    (st : AgentStatus) (t : ℚ) :
    total_agents (update_stage d k st t) = total_agents d := by
  unfold update_stage
  split_ifs
  · simp only [total_agents, List.map_map]
    refine congrArg List.sum (List.map_congr_left ?_)
    intro p hp
    by_cases hk : p.1 = k <;> simp [hk, updateStageInfo_agents]
  · rfl

theorem completed_agents_update_stage (d : PipelineStatusDisplay) (k : String)
    (st : AgentStatus) (t : ℚ) :
    completed_agents (update_stage d k st t) = completed_agents d := by
  unfold update_stage
  split_ifs
  · simp only [completed_agents, List.map_map]
    refine congrArg List.sum (List.map_congr_left ?_)
    intro p hp
    by_cases hk : p.1 = k <;> simp [hk, updateStageInfo_agents]
  · rfl

theorem progress_pct_set_completed_ge (d : PipelineStatusDisplay) (n m p : String) (t : ℚ) :
    progress_pct d ≤ progress_pct (set_agent_status d n AgentStatus.completed m p t) := by
  apply progress_pct_le_of_counts
  · exact (total_agents_mutateAgent d n _).symm
  · show completed_agents d ≤
      completed_agents (mutateAgent d n (fun b => updateAgent b AgentStatus.completed m p t))
    cases hfind : findAgent d n with
    | none => rw [mutateAgent_not_found d n _ hfind]
    | some a =>
      have hrel := completed_agents_mutateAgent d n
        (fun b => updateAgent b AgentStatus.completed m p t) a hfind
      have hcomp : isCompleted (updateAgent a AgentStatus.completed m p t) = true := by
        simp [isCompleted, updateAgent_status]
      rw [hcomp] at hrel
      cases hca : isCompleted a <;> rw [hca] at hrel <;> simp at hrel <;> omega

theorem progress_pct_mutate_duration (d : PipelineStatusDisplay) (n : String) (x : ℚ) :
    progress_pct (mutateAgent d n (fun a => { a with duration := some x })) = progress_pct d := by
  apply progress_pct_eq_of_counts
  · exact total_agents_mutateAgent d n _
  · cases hfind : findAgent d n with
    | none => rw [mutateAgent_not_found d n _ hfind]
    | some a =>
      have hrel := completed_agents_mutateAgent d n
        (fun b => { b with duration := some x }) a hfind
      have hsame : isCompleted { a with duration := some x } = isCompleted a := rfl
      rw [hsame] at hrel
      cases hca : isCompleted a <;> rw [hca] at hrel <;> simp at hrel <;> omega

/-- Claim C1, counterexample: after `agent_completed` puts `router` in the
terminal state COMPLETED, a second status write with the other terminal status
FAILED is accepted — the stored status becomes FAILED rather than staying
COMPLETED, and no `AlreadyTerminal` rejection exists anywhere in the API
(`set_agent_status` returns nothing). -/
theorem c1_counterexample :
    ((findAgent (set_agent_status (agent_completed (initDisplay "req" "pid" 0) "router" none "" 1)
        "router" AgentStatus.failed "boom" "" 2) "router").map AgentInfo.status
      = some AgentStatus.failed) ∧
    ((findAgent (agent_completed (initDisplay "req" "pid" 0) "router" none "" 1) "router").map
        AgentInfo.status = some AgentStatus.completed) :=
  ⟨by decide, by decide⟩

/-- Claim C1, amended: a status write carrying a terminal status to an agent
whose `end_time` is already set is accepted with no error signal: it overwrites
the status and both message fields, while `start_time`, `end_time` and
`duration` are left unchanged. -/
theorem c1_terminal_overwrite (d : PipelineStatusDisplay) (n : String) (a : AgentInfo)
    (e t : ℚ) (st : AgentStatus) (m p : String)
    (hfind : findAgent d n = some a) (hend : a.end_time = some e)
    (hst : st = AgentStatus.completed ∨ st = AgentStatus.failed) :
    findAgent (set_agent_status d n st m p t) n =
      some { a with status := st, status_message := m, output_preview := p } := by
  rw [findAgent_set_agent_status d n st m p t a hfind,
    updateAgent_terminal_ended a st m p t e hst hend]

/-- Witness for `c1_terminal_overwrite` on the concrete completed `router`. -/
theorem c1_terminal_overwrite_witness :
    findAgent (set_agent_status (agent_completed (initDisplay "req" "pid" 0) "router" none "" 1)
        "router" AgentStatus.failed "boom" "x" 2) "router" =
      some { name := "router", status := AgentStatus.failed, start_time := none,
             end_time := some 1, duration := none, status_message := "boom",
             output_preview := "x" } :=
  c1_terminal_overwrite (agent_completed (initDisplay "req" "pid" 0) "router" none "" 1)
    "router"
    { name := "router", status := AgentStatus.completed, start_time := none,
      end_time := some 1, duration := none, status_message := "Completed successfully",
      output_preview := "" }
    1 2 AgentStatus.failed "boom" "x" (by decide) rfl (Or.inr rfl)

/-- Claim C2, counterexample: reporting status for the undeclared agent name
`ghost`, and updating the undeclared stage key `ghost`, are silent no-ops: the
model is returned bit-for-bit unchanged and no `NotFound` condition is raised
(the methods have no failure channel at all). -/
theorem c2_counterexample :
    (set_agent_status (initDisplay "req" "pid" 0) "ghost" AgentStatus.active "go" "" 3
      = initDisplay "req" "pid" 0) ∧
    (update_stage (initDisplay "req" "pid" 0) "ghost" AgentStatus.active 3
      = initDisplay "req" "pid" 0) :=
  ⟨by decide, by decide⟩

/-- Claim C2, amended: every status-reporting call naming an agent that
`_find_agent` cannot find, and `update_stage` with a key not in the stage
table, leaves the model unmodified and signals nothing: the operations are
silent no-ops, not `NotFound` failures. -/
theorem c2_unknown_silent (d : PipelineStatusDisplay) (n k msg err preview : String)
    (st st2 : AgentStatus) (dur : Option ℚ) (t : ℚ)
    (hagent : findAgent d n = none) (hstage : d.stages.lookup k = none) :
    set_agent_status d n st msg preview t = d ∧
    agent_started d n msg t = d ∧
    agent_completed d n dur preview t = d ∧
    agent_failed d n err t = d ∧
    update_stage d k st2 t = d := by
  have hmut : ∀ f, mutateAgent d n f = d := fun f => mutateAgent_not_found d n f hagent
  refine ⟨hmut _, hmut _, ?_, hmut _, ?_⟩
  · cases dur with
    | none => exact hmut _
    | some x =>
      by_cases hx : x = 0
      · subst hx
        rw [agent_completed_zero]
        exact hmut _
      · rw [agent_completed_some d n x preview t hx, hmut _]
        exact hmut _
  · unfold update_stage
    rw [hstage]
    simp

/-- Witness for `c2_unknown_silent` on a fresh display and the name `ghost`. -/
theorem c2_unknown_silent_witness :
    (set_agent_status (initDisplay "req" "pid" 0) "ghost" AgentStatus.waiting "m" "p" 4
      = initDisplay "req" "pid" 0) ∧
    (agent_started (initDisplay "req" "pid" 0) "ghost" "m" 4 = initDisplay "req" "pid" 0) ∧
    (agent_completed (initDisplay "req" "pid" 0) "ghost" (some 5) "p" 4
      = initDisplay "req" "pid" 0) ∧
    (agent_failed (initDisplay "req" "pid" 0) "ghost" "e" 4 = initDisplay "req" "pid" 0) ∧
    (update_stage (initDisplay "req" "pid" 0) "ghost" AgentStatus.active 4
      = initDisplay "req" "pid" 0) :=
  c2_unknown_silent (initDisplay "req" "pid" 0) "ghost" "ghost" "m" "e" "p"
    AgentStatus.waiting AgentStatus.active (some 5) 4 (by decide) (by decide)

/-- Claim C5, counterexample: completing `router` straight from PENDING (no
start report ever made): `end_time` is stamped to the clock, but `start_time`
remains `None` — it is not backfilled to `end_time` — and `duration` remains
`None`, not `0`. -/
theorem c5_counterexample :
    findAgent (agent_completed (initDisplay "req" "pid" 0) "router" none "" 3) "router"
      = some { name := "router", status := AgentStatus.completed, start_time := none,
               end_time := some 3, duration := none,
               status_message := "Completed successfully", output_preview := "" } := by
  decide

/-- Claim C5, amended: a direct-to-terminal status write for an agent with
neither timestamp set stamps `end_time := now` but leaves `start_time` unset
and records `duration = None`; no backfill happens and no zero duration is
stored (the renderer later shows a blank duration for such an agent). -/
theorem c5_no_backfill (d : PipelineStatusDisplay) (n : String) (a : AgentInfo)
    (st : AgentStatus) (m p : String) (t : ℚ)
    (hfind : findAgent d n = some a) (hstart : a.start_time = none)
    (hend : a.end_time = none)
    (hst : st = AgentStatus.completed ∨ st = AgentStatus.failed) :
    findAgent (set_agent_status d n st m p t) n =
      some { a with status := st, status_message := m, output_preview := p,
                    end_time := some t, duration := none } := by
  rw [findAgent_set_agent_status d n st m p t a hfind,
    updateAgent_terminal_fresh a st m p t hst hend, hstart]
  rfl

/-- Witness for `c5_no_backfill` on the fresh pending `router`. -/
theorem c5_no_backfill_witness :
    findAgent (set_agent_status (initDisplay "req" "pid" 0) "router" AgentStatus.completed
        "done" "out" 3) "router" =
      some { name := "router", status := AgentStatus.completed, start_time := none,
             end_time := some 3, duration := none, status_message := "done",
             output_preview := "out" } :=
  c5_no_backfill (initDisplay "req" "pid" 0) "router"
    { name := "router" } AgentStatus.completed "done" "out" 3
    (by decide) rfl rfl (Or.inl rfl)

/-- Claim C7: repeated status reports are idempotent with respect to
timestamps.  A second start call on an ACTIVE agent (whose `start_time` is
set) rewrites only the message fields — `status`, `start_time`, `end_time` and
`duration` keep their values — and a second `agent_completed` call on an agent
whose `end_time` is already set leaves `end_time` unchanged, whatever explicit
duration argument it passes. -/
theorem c7_idempotent_timestamps (d1 d2 : PipelineStatusDisplay) (n1 n2 m preview : String)
    (a1 a2 : AgentInfo) (s e t1 t2 : ℚ) (dur : Option ℚ)
    (h1 : findAgent d1 n1 = some a1) (ha : a1.status = AgentStatus.active)
    (hs : a1.start_time = some s)
    (h2 : findAgent d2 n2 = some a2) (he : a2.end_time = some e)
    (hc : a2.status = AgentStatus.completed) :
    findAgent (agent_started d1 n1 m t1) n1
        = some { a1 with status_message := m, output_preview := "" } ∧
    (findAgent (agent_completed d2 n2 dur preview t2) n2).map AgentInfo.end_time
        = some (some e) := by
  constructor
  · show findAgent (set_agent_status d1 n1 AgentStatus.active m "" t1) n1 = _
    rw [findAgent_set_agent_status d1 n1 AgentStatus.active m "" t1 a1 h1,
      updateAgent_active_started a1 m "" t1 s hs, ← ha]
  · cases dur with
    | none =>
      rw [agent_completed_none,
        findAgent_set_agent_status d2 n2 AgentStatus.completed "Completed successfully"
          preview t2 a2 h2,
        updateAgent_terminal_ended a2 AgentStatus.completed "Completed successfully"
          preview t2 e (Or.inl rfl) he]
      simpa using he
    | some x =>
      by_cases hx : x = 0
      · subst hx
        rw [agent_completed_zero,
          findAgent_set_agent_status d2 n2 AgentStatus.completed "Completed successfully"
            preview t2 a2 h2,
          updateAgent_terminal_ended a2 AgentStatus.completed "Completed successfully"
            preview t2 e (Or.inl rfl) he]
        simpa using he
      · rw [agent_completed_some d2 n2 x preview t2 hx]
        have hg : findAgent (mutateAgent d2 n2 (fun b => { b with duration := some x })) n2
            = some { a2 with duration := some x } :=
          findAgent_mutateAgent d2 n2 _ a2 h2 rfl
        rw [findAgent_set_agent_status _ n2 AgentStatus.completed "Completed successfully"
            preview t2 _ hg,
          updateAgent_terminal_ended { a2 with duration := some x } AgentStatus.completed
            "Completed successfully" preview t2 e (Or.inl rfl) he]
        simpa using he

/-- Witness for `c7_idempotent_timestamps`: a started `router` restarted, and a
completed `router` re-completed with an explicit duration of 9. -/
theorem c7_idempotent_timestamps_witness :
    findAgent (agent_started (agent_started (initDisplay "req" "pid" 0) "router" "go" 1)
        "router" "again" 6) "router"
      = some { name := "router", status := AgentStatus.active, start_time := some 1,
               end_time := none, duration := none, status_message := "again",
               output_preview := "" } ∧
    (findAgent (agent_completed (agent_completed (initDisplay "req" "pid" 0) "router" none "" 1)
        "router" (some 9) "p2" 6) "router").map AgentInfo.end_time
      = some (some 1) :=
  c7_idempotent_timestamps
    (agent_started (initDisplay "req" "pid" 0) "router" "go" 1)
    (agent_completed (initDisplay "req" "pid" 0) "router" none "" 1)
    "router" "router" "again" "p2"
    { name := "router", status := AgentStatus.active, start_time := some 1,
      end_time := none, duration := none, status_message := "go", output_preview := "" }
    { name := "router", status := AgentStatus.completed, start_time := none,
      end_time := some 1, duration := none, status_message := "Completed successfully",
      output_preview := "" }
    1 1 6 6 (some 9) (by decide) rfl rfl (by decide) rfl rfl

/-- Claim C9: agent-level operations are frame-invariant on stage-level state —
`set_agent_status`, `agent_started`, `agent_completed` and `agent_failed`
preserve every stage's key, status, start_time and end_time exactly (only
`update_stage` writes those fields). -/
theorem c9_stage_decoupling (d : PipelineStatusDisplay) (n m p err preview : String)
    (st : AgentStatus) (dur : Option ℚ) (t : ℚ) :
    ((set_agent_status d n st m p t).stages.map (fun q => (q.1, stageMeta q.2))
        = d.stages.map (fun q => (q.1, stageMeta q.2))) ∧
    ((agent_started d n m t).stages.map (fun q => (q.1, stageMeta q.2))
        = d.stages.map (fun q => (q.1, stageMeta q.2))) ∧
    ((agent_completed d n dur preview t).stages.map (fun q => (q.1, stageMeta q.2))
        = d.stages.map (fun q => (q.1, stageMeta q.2))) ∧
    ((agent_failed d n err t).stages.map (fun q => (q.1, stageMeta q.2))
        = d.stages.map (fun q => (q.1, stageMeta q.2))) := by
  refine ⟨mutateAgent_stageMeta d n _, mutateAgent_stageMeta d n _, ?_,
    mutateAgent_stageMeta d n _⟩
  cases dur with
  | none => exact mutateAgent_stageMeta d n _
  | some x =>
    by_cases hx : x = 0
    · subst hx
      rw [agent_completed_zero]
      exact mutateAgent_stageMeta d n _
    · rw [agent_completed_some d n x preview t hx]
      exact (mutateAgent_stageMeta _ n _).trans (mutateAgent_stageMeta d n _)

/-- Claim C10: when the found agent has no `end_time` yet, `agent_completed`
records `duration` as the clock-derived elapsed time — `now - start_time`, or
`None` when `start_time` was never set — independent of the explicit duration
argument, which is always discarded on this path; and a passed duration of `0`
is ignored outright because Python truthiness treats it as absent. -/
theorem c10_duration_arg_discarded (d : PipelineStatusDisplay) (n p : String)
    (dur : Option ℚ) (a : AgentInfo) (t : ℚ)
    (hfind : findAgent d n = some a) (hend : a.end_time = none) :
    (findAgent (agent_completed d n dur p t) n
      = some { a with status := AgentStatus.completed,
                      status_message := "Completed successfully", output_preview := p,
                      end_time := some t,
                      duration := a.start_time.map (fun s => t - s) }) ∧
    agent_completed d n (some 0) p t = agent_completed d n none p t := by
  constructor
  · cases dur with
    | none =>
      rw [agent_completed_none, findAgent_set_agent_status d n AgentStatus.completed
          "Completed successfully" p t a hfind,
        updateAgent_terminal_fresh a AgentStatus.completed "Completed successfully" p t
          (Or.inl rfl) hend]
    | some x =>
      by_cases hx : x = 0
      · subst hx
        rw [agent_completed_zero, findAgent_set_agent_status d n AgentStatus.completed
            "Completed successfully" p t a hfind,
          updateAgent_terminal_fresh a AgentStatus.completed "Completed successfully" p t
            (Or.inl rfl) hend]
      · rw [agent_completed_some d n x p t hx]
        have hg : findAgent (mutateAgent d n (fun b => { b with duration := some x })) n
            = some { a with duration := some x } :=
          findAgent_mutateAgent d n _ a hfind rfl
        rw [findAgent_set_agent_status _ n AgentStatus.completed "Completed successfully"
            p t _ hg,
          updateAgent_terminal_fresh { a with duration := some x } AgentStatus.completed
            "Completed successfully" p t (Or.inl rfl) hend]
  · exact (agent_completed_zero d n p t).trans (agent_completed_none d n p t).symm

/-- Witness for `c10_duration_arg_discarded`: completing the started `router`
(start_time 1) at clock 4 with an explicit duration of 9 records duration
`4 - 1`, not `9`. -/
theorem c10_duration_arg_discarded_witness :
    (findAgent (agent_completed (agent_started (initDisplay "req" "pid" 0) "router" "go" 1)
        "router" (some 9) "out" 4) "router"
      = some { name := "router", status := AgentStatus.completed, start_time := some 1,
               end_time := some 4, duration := some ((4 : ℚ) - 1),
               status_message := "Completed successfully", output_preview := "out" }) ∧
    agent_completed (agent_started (initDisplay "req" "pid" 0) "router" "go" 1)
        "router" (some 0) "out" 4
      = agent_completed (agent_started (initDisplay "req" "pid" 0) "router" "go" 1)
        "router" none "out" 4 :=
  c10_duration_arg_discarded (agent_started (initDisplay "req" "pid" 0) "router" "go" 1)
    "router" "out" (some 9)
    { name := "router", status := AgentStatus.active, start_time := some 1,
      end_time := none, duration := none, status_message := "go", output_preview := "" }
    4 (by decide) rfl

/-- Claim C3: the overall completion fraction (the progress percentage over
100) equals `completed_agent_count / total_agent_count`, counting only agents
whose status is COMPLETED, with no stage weighting; it is `0` when the total
agent count is `0`; and `agent_failed` never increases it. -/
theorem c3_completion_fraction (d : PipelineStatusDisplay) :
    (total_agents d = 0 → progress_pct d = 0) ∧
    (0 < total_agents d →
      progress_pct d / 100 = (completed_agents d : ℚ) / (total_agents d : ℚ)) ∧
    (∀ n err t, progress_pct (agent_failed d n err t) ≤ progress_pct d) := by
  refine ⟨?_, ?_, ?_⟩
  · intro h
    unfold progress_pct
    rw [if_neg (by omega)]
  · intro h
    unfold progress_pct
    rw [if_pos h, mul_div_assoc]
    norm_num
  · intro n err t
    apply progress_pct_le_of_counts
    · exact total_agents_mutateAgent d n _
    · show completed_agents (mutateAgent d n
        (fun b => updateAgent b AgentStatus.failed ("Error: " ++ err) "" t)) ≤
        completed_agents d
      cases hfind : findAgent d n with
      | none => rw [mutateAgent_not_found d n _ hfind]
      | some a =>
        have hrel := completed_agents_mutateAgent d n
          (fun b => updateAgent b AgentStatus.failed ("Error: " ++ err) "" t) a hfind
        have hnc : isCompleted (updateAgent a AgentStatus.failed ("Error: " ++ err) "" t)
            = false := by
          simp [isCompleted, updateAgent_status]
        rw [hnc] at hrel
        cases hca : isCompleted a <;> rw [hca] at hrel <;> simp at hrel <;> omega

/-- Witness for `c3_completion_fraction`: a display with an empty stage table
for the zero case, and a fresh full configuration (10 agents, one then
completed) for the positive and failure cases. -/
theorem c3_completion_fraction_witness :
    (total_agents { request := "r", pipeline_id := "p", start_time := 0, stages := [] } = 0) ∧
    progress_pct { request := "r", pipeline_id := "p", start_time := 0, stages := [] } = 0 ∧
    (0 < total_agents (initDisplay "req" "pid" 0)) ∧
    progress_pct (initDisplay "req" "pid" 0) / 100
      = (completed_agents (initDisplay "req" "pid" 0) : ℚ)
        / (total_agents (initDisplay "req" "pid" 0) : ℚ) ∧
    progress_pct (agent_failed (initDisplay "req" "pid" 0) "router" "boom" 2)
      ≤ progress_pct (initDisplay "req" "pid" 0) :=
  ⟨by decide,
   (c3_completion_fraction { request := "r", pipeline_id := "p", start_time := 0, stages := [] }).1 (by decide),
   by decide,
   (c3_completion_fraction (initDisplay "req" "pid" 0)).2.1 (by decide),
   (c3_completion_fraction (initDisplay "req" "pid" 0)).2.2 "router" "boom" 2⟩

/-- Claim C4: whenever the progress percentage is strictly positive the
display's estimated remaining time is exactly
`max(0, elapsed / completion_fraction - elapsed)`, and at zero progress the
placeholder (`"Calculating..."`, embedded as `none`) is shown instead of a
number.  The monitor never clamps with `max`, but any number it does print (it
prints one only for `0 < pct < 100`) is nonnegative and hence equal to the
claimed `max(0, ...)` expression, and at zero progress it prints no number. -/
theorem c4_estimated_remaining (d : PipelineStatusDisplay) (now e : ℚ)
    (completed total : ℕ) (r : ℚ) (h0 : 0 ≤ e)
    (hshown : monitor_est_remaining completed total e = some r) :
    (0 < progress_pct d →
      est_remaining d now
        = some (max 0 ((now - d.start_time) / (progress_pct d / 100) - (now - d.start_time)))) ∧
    (progress_pct d = 0 → est_remaining d now = none) ∧
    (monitor_progress_pct completed total = 0 →
      monitor_est_remaining completed total e = none) ∧
    r = max 0 (e / (monitor_progress_pct completed total / 100) - e) := by
  refine ⟨?_, ?_, ?_, ?_⟩
  · intro h
    unfold est_remaining
    rw [if_pos h]
  · intro h
    unfold est_remaining
    rw [if_neg (by rw [h]; exact lt_irrefl 0)]
  · intro h
    simp only [monitor_est_remaining]
    rw [if_neg (by rw [h]; simp)]
  · simp only [monitor_est_remaining] at hshown
    split_ifs at hshown with hcond
    · obtain ⟨hpos, hlt⟩ := hcond
      obtain rfl : e / (monitor_progress_pct completed total / 100) - e = r :=
        Option.some.inj hshown
      have hq : 0 < monitor_progress_pct completed total / 100 :=
        div_pos hpos (by norm_num)
      have hle : e ≤ e / (monitor_progress_pct completed total / 100) := by
        rw [le_div_iff₀ hq]
        calc e * (monitor_progress_pct completed total / 100) ≤ e * 1 := by
              apply mul_le_mul_of_nonneg_left _ h0
              rw [div_le_one (by norm_num)]
              exact le_of_lt hlt
          _ = e := mul_one e
      rw [max_eq_right (by linarith)]

/-- Witness for `c4_estimated_remaining`: the monitor at 2 of 10 agents done
and 30 time units elapsed, paired with an arbitrary fresh display. -/
theorem c4_estimated_remaining_witness :
    (0 : ℚ) ≤ 30 ∧
    monitor_est_remaining 2 10 30 = some 120 ∧
    (120 : ℚ) = max 0 (30 / (monitor_progress_pct 2 10 / 100) - 30) :=
  ⟨by norm_num,
   by norm_num [monitor_est_remaining, monitor_progress_pct],
   (c4_estimated_remaining (initDisplay "req" "pid" 0) 0 30 2 10 120 (by norm_num)
     (by norm_num [monitor_est_remaining, monitor_progress_pct])).2.2.2⟩

/-- Claim C8, counterexample: the completion fraction strictly decreases when a
start report arrives for an agent that is already COMPLETED — the write moves
the agent back to ACTIVE, so the progress percentage drops from 10 to 0. -/
theorem c8_counterexample :
    progress_pct (agent_started (agent_completed (initDisplay "req" "pid" 0) "router" none "" 5)
        "router" "again" 7)
      < progress_pct (agent_completed (initDisplay "req" "pid" 0) "router" none "" 5) := by
  have h1 : total_agents (agent_started (agent_completed (initDisplay "req" "pid" 0) "router"
      none "" 5) "router" "again" 7) = 10 := by decide
  have h2 : total_agents (agent_completed (initDisplay "req" "pid" 0) "router" none "" 5)
      = 10 := by decide
  have h3 : completed_agents (agent_started (agent_completed (initDisplay "req" "pid" 0)
      "router" none "" 5) "router" "again" 7) = 0 := by decide
  have h4 : completed_agents (agent_completed (initDisplay "req" "pid" 0) "router" none "" 5)
      = 1 := by decide
  unfold progress_pct
  rw [h1, h2, h3, h4]
  norm_num

/-- Claim C8, amended: the completion fraction never decreases under
`agent_completed`, is untouched by `update_stage`, and never decreases under a
status write whose target agent is not currently COMPLETED; it is not globally
monotone because a non-COMPLETED write aimed at a COMPLETED agent moves that
agent out of the terminal state and strictly lowers the fraction. -/
theorem c8_conditional_monotonicity (d : PipelineStatusDisplay) (n n2 k m p p2 : String)
    (dur : Option ℚ) (st st2 : AgentStatus) (t t2 t3 : ℚ)
    (hsafe : ∀ a, findAgent d n2 = some a → a.status ≠ AgentStatus.completed) :
    progress_pct d ≤ progress_pct (agent_completed d n dur p t) ∧
    progress_pct (update_stage d k st t2) = progress_pct d ∧
    progress_pct d ≤ progress_pct (set_agent_status d n2 st2 m p2 t3) := by
  refine ⟨?_, ?_, ?_⟩
  · cases dur with
    | none =>
      rw [agent_completed_none]
      exact progress_pct_set_completed_ge d n _ p t
    | some x =>
      by_cases hx : x = 0
      · subst hx
        rw [agent_completed_zero]
        exact progress_pct_set_completed_ge d n _ p t
      · rw [agent_completed_some d n x p t hx]
        calc progress_pct d
            = progress_pct (mutateAgent d n (fun a => { a with duration := some x })) :=
              (progress_pct_mutate_duration d n x).symm
          _ ≤ _ := progress_pct_set_completed_ge _ n _ p t
  · exact progress_pct_eq_of_counts _ _ (total_agents_update_stage d k st t2)
      (completed_agents_update_stage d k st t2)
  · apply progress_pct_le_of_counts
    · exact (total_agents_mutateAgent d n2 _).symm
    · show completed_agents d ≤ completed_agents (mutateAgent d n2
        (fun b => updateAgent b st2 m p2 t3))
      cases hfind : findAgent d n2 with
      | none => rw [mutateAgent_not_found d n2 _ hfind]
      | some a =>
        have hrel := completed_agents_mutateAgent d n2
          (fun b => updateAgent b st2 m p2 t3) a hfind
        have hca : isCompleted a = false := by
          simp only [isCompleted, decide_eq_false_iff_not]
          exact hsafe a hfind
        rw [hca] at hrel
        cases hcf : isCompleted (updateAgent a st2 m p2 t3) <;> rw [hcf] at hrel <;>
          simp at hrel <;> omega

/-- Witness for `c8_conditional_monotonicity` on a fresh display, completing
`router` with an explicit duration, marking the intent stage active, and
re-reporting the pending `router` as active. -/
theorem c8_conditional_monotonicity_witness :
    progress_pct (initDisplay "req" "pid" 0)
      ≤ progress_pct (agent_completed (initDisplay "req" "pid" 0) "router" (some 3) "p" 2) ∧
    progress_pct (update_stage (initDisplay "req" "pid" 0) "intent" AgentStatus.active 2)
      = progress_pct (initDisplay "req" "pid" 0) ∧
    progress_pct (initDisplay "req" "pid" 0)
      ≤ progress_pct (set_agent_status (initDisplay "req" "pid" 0) "router"
          AgentStatus.active "m" "" 2) :=
  c8_conditional_monotonicity (initDisplay "req" "pid" 0) "router" "router" "intent"
    "m" "p" "" (some 3) AgentStatus.active AgentStatus.active 2 2 2
    (by
      intro a h
      rw [show findAgent (initDisplay "req" "pid" 0) "router" = some { name := "router" }
        from by decide] at h
      obtain rfl : ({ name := "router" } : AgentInfo) = a := Option.some.inj h
      decide)

/-- Claim C6, counterexample: a completion report at clock 5 for the pending
`router` (no start) followed by a start report at clock 7 leaves the agent with
`start_time = 7` and `end_time = 5`, so with both timestamps set the invariant
`end_time ≥ start_time` is violated. -/
theorem c6_counterexample :
    ((findAgent (agent_started (agent_completed (initDisplay "req" "pid" 0) "router" none "" 5)
        "router" "again" 7) "router").map (fun a => (a.start_time, a.end_time))
      = some (some 7, some 5)) ∧ ¬ ((5 : ℚ) ≥ 7) :=
  ⟨by decide, by decide⟩

/-- Claim C6, amended: over any sequence of status calls with nondecreasing
clock readings in which no `agent_completed` passes a nonzero explicit
duration, every agent that has a recorded duration has both timestamps set
with `end_time ≥ start_time` and `duration = end_time - start_time` exactly
(the value computed once at its terminal transition).  Without those two
restrictions the claim fails: a later `agent_completed` with a nonzero
explicit duration overwrites `duration`, and a start report after a
skip-to-terminal sets `start_time > end_time`. -/
theorem c6_duration_consistency (req pid : String) (t0 : ℚ) (ops : List (Op × ℚ))
    (k : String) (st : PipelineStage) (a : AgentInfo) (dd : ℚ)
    (htime : timesFrom t0 ops = true) (hdur : noExplicitDuration ops = true)
    (hmem : (k, st) ∈ (runOps (initDisplay req pid t0) ops).stages)
    (ha : a ∈ st.agents) (hd : a.duration = some dd) :
    ∃ s e, a.start_time = some s ∧ a.end_time = some e ∧ s ≤ e ∧ dd = e - s := by
  obtain ⟨T2, hinv⟩ := runOps_inv ops (initDisplay req pid t0) t0
    (initDisplay_inv req pid t0) htime hdur
  exact (hinv k st hmem a ha).2.2 dd hd

/-- Witness for `c6_duration_consistency`: the run that starts `router` at
clock 2 and completes it at clock 4 records `duration = 4 - 2` with both
timestamps set and in order. -/
theorem c6_duration_consistency_witness :
    ∃ s e, routerDone.start_time = some s ∧ routerDone.end_time = some e ∧ s ≤ e ∧
      (4 : ℚ) - 2 = e - s :=
  c6_duration_consistency "req" "pid" 0
    [(Op.started "router" "go", 2), (Op.completedOp "router" none "", 4)]
    "routing" routingDone routerDone ((4 : ℚ) - 2)
    (by decide) (by decide) (List.Mem.head _) (List.Mem.head _) rfl

end PipelineStatus
